import Mathlib

/-!
# Verification of the treelog logging library against its specification

Shallow embedding of the treelog sources (`treelog/_text.py`, `treelog/_io.py`)
together with spec-modelled definitions for the parts of the package whose
implementation is not present in the source tree (the persistent-store `open`
scope, the level filter and the `Log.context` helper of the protocol base
class).  Strings are modelled by Lean `String`s (`List Char` under the hood),
file contents by `List UInt8`, the five log levels by the integers 0..4 used
throughout the code (debug, info, user, warning, error).
-/

/-! ## Definitions -/

/-- Errors raised by the Python code paths that the claims mention. -/
inductive PyErr where
  | unsupportedOperation (msg : String)
  | valueError (msg : String)
  | indexError
  deriving Repr, DecidableEq

/-! ## Context stack (`treelog/_text.py`, `ContextLog`) -/

/-- The three context-changing protocol events. -/
inductive CtxEvent where
  | push (title : String)
  | pop
  | re (title : String)
  deriving Repr, DecidableEq

/-- `ContextLog.pushcontext` / `popcontext` / `recontext` acting on the
`currentcontext` list.  `popcontext` pops the last element (`list.pop`), which
raises `IndexError` on an empty list; `recontext` assigns `[-1]`, which also
raises `IndexError` on an empty list. -/
def applyEvent : CtxEvent → List String → Except PyErr (List String)
  | .push t, s => .ok (s ++ [t])
  | .pop, [] => .error .indexError
  | .pop, s => .ok s.dropLast
  | .re _, [] => .error .indexError
  | .re t, s => .ok (s.dropLast ++ [t])

/-- `''.join(item + ' > ' for item in self.currentcontext)`:
the context-path string printed by the rich renderer. -/
def pathString (stack : List String) : String :=
  String.join (stack.map (fun item => item ++ " > "))

/-! ## Rich console renderer (`treelog/_text.py`, `RichOutputLog`) -/

/-- `_first(items)` from `treelog/_text.py`: index of the first truthy item,
or the length of the list if all items are falsy. -/
def firstTruthy : List Bool → Nat
  | [] => 0
  | b :: bs => if b then 0 else firstTruthy bs + 1

/-- The body of `RichOutputLog.contextchangedhook` past the early return:
given the previously printed path `old` (`self._current`) and the freshly
joined path `new` (`_current`), the string written to stdout.
`n = _first(c1 != c2 for c1, c2 in zip(_current, self._current))`. -/
def emitDiff (old new : String) : String :=
  let n := firstTruthy (List.zipWith (fun c1 c2 => c1 != c2) new.data old.data)
  (if n = 0 then "\r"
   else if n < old.data.length then "\x1b[" ++ Nat.repr (old.data.length - n) ++ "D"
   else "")
  ++ (if n < new.data.length then "\x1b[1;30m" ++ String.mk (new.data.drop n) ++ "\x1b[0m" else "")
  ++ (if new.data.length < old.data.length then "\x1b[K" else "")

/-- `RichOutputLog.contextchangedhook` as a function of the previously printed
path and the new joined path: returns the bytes written and the updated
`self._current`.  If the joined path equals the printed one the hook returns
immediately, writing nothing and leaving `self._current` untouched. -/
def hookRun (old new : String) : String × String :=
  if new = old then ("", old) else (emitDiff old new, new)

/-- State of a `RichOutputLog`: the `currentcontext` stack and the
currently printed context path `self._current`. -/
structure RichState where
  stack : List String
  printed : String
  deriving Repr, DecidableEq

/-- One context event processed by a `RichOutputLog`: mutate the stack, then
run `contextchangedhook`.  Returns the string written to stdout and the new
renderer state. -/
def richStep (s : RichState) (e : CtxEvent) : Except PyErr (String × RichState) :=
  match applyEvent e s.stack with
  | .error er => .error er
  | .ok stack' =>
      let r := hookRun s.printed (pathString stack')
      .ok (r.1, ⟨stack', r.2⟩)

/-- The spec's description of the diffing algorithm, §4.3: "given previous
path `P` and new path `N`, find the first index `k` where `P[k] != N[k]`
(or `k = min(len(P), len(N))` if one is a prefix of the other)". -/
def specFirstDiff : List Char → List Char → Nat
  | p :: ps, q :: qs => if p = q then specFirstDiff ps qs + 1 else 0
  | _, _ => 0

/-- The spec's diffing algorithm, §4.3 / claim C1: "if `k == 0`, emit a
carriage return; else if `k < len(P)`, emit a cursor-left-by-`(len(P)-k)`
sequence; then if `k < len(N)`, emit the styled suffix `N[k:]`; then if
`len(N) < len(P)`, emit a clear-to-end-of-line". -/
def specEmit (P N : String) : String :=
  let k := specFirstDiff P.data N.data
  (if k = 0 then "\r"
   else if k < P.data.length then "\x1b[" ++ Nat.repr (P.data.length - k) ++ "D"
   else "")
  ++ (if k < N.data.length then "\x1b[1;30m" ++ String.mk (N.data.drop k) ++ "\x1b[0m" else "")
  ++ (if N.data.length < P.data.length then "\x1b[K" else "")

/-- `RichOutputLog.write` from `treelog/_text.py`: builds the item list
(level-dependent style code, the text, a newline, the dim-styled current
context path when the context stack is non-empty, a reset) and joins it. -/
def richOutputWrite (level : Nat) (currentcontext : List String) (cur : String)
    (text : String) : String :=
  let items : List String :=
    (if level = 4 then ["\x1b[1;31m"]
     else if level = 3 then ["\x1b[0;31m"]
     else if level = 2 then ["\x1b[1;34m"]
     else [])
    ++ [text, "\n"]
    ++ (if currentcontext.isEmpty then [] else ["\x1b[1;30m", cur])
    ++ ["\x1b[0m"]
  String.join items

/-- Style prefixes as the amended claim states them: bold-red for error (4),
red for warning (3), bold-blue for user (2), and no style code for info (1)
or debug (0). -/
def amendedStyle (level : Nat) : String :=
  if level = 4 then "\x1b[1;31m"
  else if level = 3 then "\x1b[0;31m"
  else if level = 2 then "\x1b[1;34m"
  else ""

/-- Style prefixes as claim C6 states them: additionally a dim code for
debug (0). -/
def claimedStyle (level : Nat) : String :=
  if level = 4 then "\x1b[1;31m"
  else if level = 3 then "\x1b[0;31m"
  else if level = 2 then "\x1b[1;34m"
  else if level = 0 then "\x1b[1;30m"
  else ""

/-- The spec-side description of a rich `write`: style prefix, the text and a
newline, then the context path re-printed in dim style whenever the stack is
non-empty, then a reset. -/
def specRichWrite (style : Nat → String) (level : Nat) (currentcontext : List String)
    (cur : String) (text : String) : String :=
  style level ++ text ++ "\n"
  ++ (if currentcontext.isEmpty then "" else "\x1b[1;30m" ++ cur)
  ++ "\x1b[0m"

/-- `virtualMarker = '<treelog>' + os.sep`. -/
def virtualMarker : String := "<treelog>/"

/-- `devnull.name`: the virtual filename the discard sink is tagged with. -/
def devnullVirtualName (name : String) : String := virtualMarker ++ name

/-- `devnull.__bool__`: the discard sink is false in boolean context. -/
def devnullBool : Bool := false

/-- `devnull.readable`. -/
def devnullReadable : Bool := false

/-- `devnull.read`: raises `io.UnsupportedOperation('not readable')`. -/
def devnullRead (α : Type) (_n : Nat) : Except PyErr (List α) :=
  .error (.unsupportedOperation "not readable")

/-- `devnull.writable`. -/
def devnullWritable : Bool := true

/-- `devnull.write`: accepts any string or bytes (`typing.AnyStr`, modelled by
a list over an arbitrary element type), drops it, and returns its length. -/
def devnullWrite {α : Type} (item : List α) : Except PyErr Nat :=
  .ok item.length

/-- `devnull.seekable`. -/
def devnullSeekable : Bool := false

/-- `devnull.seek`: raises `io.UnsupportedOperation('not seekable')`. -/
def devnullSeek (_args : List Int) : Except PyErr Nat :=
  .error (.unsupportedOperation "not seekable")

/-- Handles returned by `directory.open`: either the discard sink `devnull`
(carrying the name it was constructed with) or a real wrapped file object
(carrying the file name and the requested mode). -/
inductive Handle where
  | devnull (name : String)
  | file (name : String) (mode : String)
  deriving Repr, DecidableEq

/-- Python truthiness of a handle: `devnull.__bool__` returns `False`; real
file objects are truthy. -/
def handleBool : Handle → Bool
  | .devnull _ => devnullBool
  | .file _ _ => true

/-- The store's directory contents: an association of file names to byte
contents. -/
abbrev FS : Type := List (String × List UInt8)

/-- `name or filename` from `directory.open` (`name` is an optional keyword
argument defaulting to `None`; an empty string is falsy). -/
def pyOr (name : Option String) (filename : String) : String :=
  match name with
  | some n => if n = "" then filename else n
  | none => filename

/-- The write modes accepted by `directory.open`'s `if/elif` chain. -/
def validMode (mode : String) : Bool :=
  mode = "w" || mode = "w+" || mode = "wb" || mode = "wb+"

/-- `directory.open(filename, mode, name=...)`: the mode is validated first
(`ValueError` before anything is created); then the file is created with
`os.O_CREAT | os.O_EXCL`, which raises `FileExistsError` — caught and turned
into a `devnull` discard sink — when a file of that name already exists, and
otherwise creates the file empty and exclusively.  Returns the handle
produced together with the directory contents afterwards. -/
def dirOpen (fs : FS) (filename mode : String) (name : Option String) :
    Except PyErr Handle × FS :=
  if validMode mode then
    match (fs : List (String × List UInt8)).lookup filename with
    | some _ => (.ok (.devnull (pyOr name filename)), fs)
    | none => (.ok (.file filename mode), fs ++ [(filename, [])])
  else (.error (.valueError ("invalid mode: " ++ mode)), fs)

/-- `blocksize = 65536` from `directory.hash`. -/
def hashBlocksize : Nat := 65536

/-- The read/update loop of `directory.hash`: `buf = os.read(fd, blocksize)`
followed by `while buf: h.update(buf); buf = os.read(fd, blocksize)`.
`rest` is what remains of the file, `acc` the bytes fed to the digest so far
(hashlib's `update` concatenates). Returns all bytes fed to the digest. -/
def hashUpdateLoop (rest acc : List UInt8) : List UInt8 :=
  if rest.isEmpty then acc
  else hashUpdateLoop (rest.drop hashBlocksize) (acc ++ rest.take hashBlocksize)
termination_by rest.length
decreasing_by
  simp only [List.length_drop]
  have hpos : 0 < rest.length := by
    cases rest with
    | nil => simp at *
    | cons a l => simp
  exact Nat.sub_lt hpos (by decide)

/-- `directory.hash`: stream the file's bytes through the digest in
fixed-size blocks and return the final digest.  The digest algorithm is an
arbitrary function of the full byte sequence fed to it (hashlib's
update/digest contract). -/
def directoryHash (digest : List UInt8 → List UInt8) (content : List UInt8) : List UInt8 :=
  digest (hashUpdateLoop content [])

/-- Index of the last occurrence of `c` in `l` (`str.rfind`, as an
`Option` instead of Python's `-1` sentinel). -/
def rfindIdx (c : Char) : List Char → Option Nat
  | [] => none
  | x :: xs =>
      match rfindIdx c xs with
      | some i => some (i + 1)
      | none => if x = c then some 0 else none

/-- `os.path.splitext` (CPython `genericpath._splitext` with `sep = '/'`,
no `altsep`, `extsep = '.'`): split at the last dot provided it lies after
the last path separator and the base name does not consist solely of leading
dots up to that position. -/
def splitext (p : List Char) : List Char × List Char :=
  let start := match rfindIdx '/' p with
    | some s => s + 1
    | none => 0
  match rfindIdx '.' p with
  | some d =>
      if start ≤ d then
        if ((p.drop start).take (d - start)).any (fun ch => ch != '.') then
          (p.take d, p.drop d)
        else (p, [])
      else (p, [])
  | none => (p, [])

/-- `sequence(filename)` from `treelog/_io.py` as a function of the
candidate index: candidate 0 is the filename itself, candidate `i ≥ 1` is
`'-{}'.format(i).join(os.path.splitext(filename))`, i.e. the root, then
`-i`, then the extension. -/
def sequenceName (filename : List Char) (i : Nat) : List Char :=
  if i = 0 then filename
  else (splitext filename).1 ++ ('-' :: (Nat.repr i).data) ++ (splitext filename).2

/-- Protocol events as seen by a downstream renderer: leveled writes, the
three context events, and leveled attachment opens. -/
inductive FEvent where
  | write (text : String) (level : Nat)
  | push (title : String)
  | pop
  | re (title : String)
  | openev (filename : String) (level : Nat)
  deriving Repr, DecidableEq

/-- Modelled from the spec: `_base.Log.context`, whose implementation is not
in the source tree — "a named scope on the renderer's title stack"
(glossary; §3 context stack): push the title, run the scope, pop. -/
def withContextEvents (title : String) (inner : List FEvent) : List FEvent :=
  [FEvent.push title] ++ inner ++ [FEvent.pop]

/-- `ContextLog.open` from `treelog/_text.py`:
`with self.context(filename), _io.devnull(filename) as f: yield f` followed
by `self.write(filename, level=level)`.  The caller's scope (emitting
`bodyEvents`) runs inside a context titled by the filename with a `devnull`
sink yielded to it; after the scope closes normally a write of the filename
at the requested level follows.  Returns the protocol events produced and
the yielded sink. -/
def contextLogOpen (filename : String) (level : Nat) (bodyEvents : List FEvent) :
    List FEvent × Handle :=
  (withContextEvents filename bodyEvents ++ [FEvent.write filename level],
   Handle.devnull filename)

/-- Modelled from the spec: `FilterLog` (§4.6), whose implementation is not
in the source tree: "forwards `write` and attachment `open` only when
`level >= minlevel`; below threshold, `open` returns a discard sink and no
`write` event reaches `inner`. Context events are always forwarded
unfiltered." -/
def filterForward (minlevel : Nat) : FEvent → List FEvent
  | .write t l => if minlevel ≤ l then [.write t l] else []
  | .openev f l => if minlevel ≤ l then [.openev f l] else []
  | .push t => [.push t]
  | .pop => [.pop]
  | .re t => [.re t]

/-- An event sequence driven through the filter: each event is forwarded or
dropped independently. -/
def filterRun (minlevel : Nat) (es : List FEvent) : List FEvent :=
  es.flatMap (filterForward minlevel)

/-- Context events among protocol events. -/
def isContextEvent : FEvent → Bool
  | .push _ => true
  | .pop => true
  | .re _ => true
  | _ => false

/-- Association-list lookup by key. -/
def lookupKey {α : Type} (k : String) : List (String × α) → Option α
  | [] => none
  | (k', v) :: rest => if k' = k then some v else lookupKey k rest

/-- Association-list deletion by key. -/
def removeKey {α : Type} (k : String) : List (String × α) → List (String × α)
  | [] => []
  | (k', v) :: rest => if k' = k then removeKey k rest else (k', v) :: removeKey k rest

/-- A lowercase hex digit. -/
def hexChar (n : Nat) : Char :=
  if n < 10 then Char.ofNat (48 + n) else Char.ofNat (87 + n)

/-- Lowercase hex encoding of an id byte string (spec §6: the id index names
its entries "by the lowercase hex encoding of the id bytes"). -/
def hexEncode (bs : List UInt8) : String :=
  String.mk ((bs.map (fun b => [hexChar (b.toNat / 16), hexChar (b.toNat % 16)])).flatten)

/-- State of a persistent renderer's attachment store: the visible files
(name to content) and the id index (hex-encoded id to stored file name). -/
structure Store where
  files : List (String × List UInt8)
  ids : List (String × String)
  deriving Repr, DecidableEq

/-- How the caller's attachment scope ends: a clean exit having written
`content`, or an exception raised after writing some bytes. -/
inductive ScopeOutcome where
  | ok (content : List UInt8)
  | exn (e : String) (written : List UInt8)
  deriving Repr, DecidableEq

/-- Try the candidate names `sequenceName filename 0, 1, 2, …` starting at
index `i` and return the first whose name is unused; fuelled so the search
is total (the store is finite, so in the code the search always ends). -/
def firstUnusedAux (files : List (String × List UInt8)) (filename : String) :
    Nat → Nat → Option String
  | 0, _ => none
  | fuel + 1, i =>
      let cand := String.mk (sequenceName filename.data i)
      if (lookupKey cand files).isSome then firstUnusedAux files filename fuel (i + 1)
      else some cand

/-- First unused candidate name, per the spec's `open_first_unused` over the
`name, name-1, name-2, …` sequence. -/
def firstUnused (files : List (String × List UInt8)) (filename : String) : Option String :=
  firstUnusedAux files filename (files.length + 1) 0

/-- Modelled from the spec: steps 2 and 3 of the persistent renderers'
`open` (§4.4), whose implementation is not in the source tree — claim the
first unused name of the candidate sequence and write the scope's content
through it; on clean exit add the id-index entry (when an id was given) and
emit a `write(claimed_name, level)` event; on abnormal exit delete the
just-created file and any id-index entry for this call, emit nothing, and
re-raise the caller's error. -/
def dataLogOpenFresh (st : Store) (filename : String) (level : Nat)
    (key : Option String) (outcome : ScopeOutcome) :
    Option (List FEvent × Store × Option String) :=
  match firstUnused st.files filename with
  | none => none
  | some claimed =>
      match outcome with
      | .ok content =>
          let files' := st.files ++ [(claimed, content)]
          let ids' := match key with
            | some k => st.ids ++ [(k, claimed)]
            | none => st.ids
          some ([FEvent.write claimed level], ⟨files', ids'⟩, none)
      | .exn e written =>
          let files' := removeKey claimed (st.files ++ [(claimed, written)])
          let ids' := match key with
            | some k => removeKey k st.ids
            | none => st.ids
          some ([], ⟨files', ids'⟩, some e)

/-- Modelled from the spec: the persistent renderers' `open(filename, mode,
level, id)` scope (§4.4), whose implementation is not in the source tree —
step 1: an id already present in the id index yields a discard sink and
leaves the visible namespace untouched; otherwise steps 2 and 3 run
(`dataLogOpenFresh`).  Returns the events emitted downstream, the store
afterwards, and the exception propagated to the caller (if any). -/
def dataLogOpen (st : Store) (filename : String) (level : Nat)
    (id : Option (List UInt8)) (outcome : ScopeOutcome) :
    Option (List FEvent × Store × Option String) :=
  match id with
  | some idb =>
      match lookupKey (hexEncode idb) st.ids with
      | some stored =>
          match outcome with
          | .ok _ => some ([FEvent.write stored level], st, none)
          | .exn e _ => some ([], st, some e)
      | none => dataLogOpenFresh st filename level (some (hexEncode idb)) outcome
  | none => dataLogOpenFresh st filename level none outcome

/-! ## Theorems -/

/-- The hook's `n` equals the spec's `k`. -/
theorem firstTruthy_zipWith_eq_specFirstDiff (N P : List Char) :
    firstTruthy (List.zipWith (fun c1 c2 => c1 != c2) N P) = specFirstDiff P N := by
  induction N generalizing P with
  | nil => cases P <;> rfl
  | cons c cs ih =>
      cases P with
      | nil => rfl
      | cons d ds =>
          simp only [List.zipWith, firstTruthy, specFirstDiff, bne_iff_ne, ne_eq, ih]
          by_cases h : c = d
          · simp [h]
          · simp [h, Ne.symm h]

/-- For distinct paths the hook's emission is exactly the spec's algorithm. -/
theorem emitDiff_eq_specEmit (P N : String) : emitDiff P N = specEmit P N := by
  unfold emitDiff specEmit
  rw [firstTruthy_zipWith_eq_specFirstDiff]

/-- C1 (corrected): the rich renderer's context-change handler emits the
spec's diff algorithm output whenever the new path differs from the printed
one, and emits nothing when the two are equal (for equal non-empty paths the
spec's algorithm also yields the empty emission; the two disagree only at
`P = N = ""`, where the algorithm would emit a carriage return but the
handler returns early without writing). -/
theorem C1_context_diff_amended (P N : String) :
    (hookRun P N).1 = if N = P then "" else specEmit P N := by
  unfold hookRun
  split
  · rfl
  · exact emitDiff_eq_specEmit P N

/-- C1 counterexample: at previous path `P = ""` and new path `N = ""` the
handler writes nothing, while the claimed algorithm (`k = 0`) emits a
carriage return. -/
theorem C1_context_diff_counterexample :
    (hookRun "" "").1 ≠ specEmit "" "" ∧ (hookRun "" "").1 = "" ∧ specEmit "" "" = "\r" := by
  refine ⟨?_, by decide, by decide⟩
  decide

/-- C10: a context event after which the joined context-path string equals
the previously printed one makes the rich renderer write nothing at all, and
leaves its recorded last-printed path unchanged. -/
theorem C10_no_output_on_equal_path (stack : List String) (printed : String)
    (e : CtxEvent) (stack' : List String)
    (happly : applyEvent e stack = .ok stack')
    (heq : pathString stack' = printed) :
    richStep ⟨stack, printed⟩ e = .ok ("", ⟨stack', printed⟩) := by
  simp [richStep, happly, heq, hookRun]

/-- C10 witness: a `recontext` that replaces the top title `"a"` with the
identical title `"a"` produces no output and keeps the printed path. -/
theorem C10_no_output_on_equal_path_witness :
    richStep ⟨["a"], "a > "⟩ (.re "a") = .ok ("", ⟨["a"], "a > "⟩) :=
  C10_no_output_on_equal_path ["a"] "a > " (.re "a") ["a"] rfl rfl

/-- C6 counterexample: a debug-level (0) write of `"dbg"` with an empty
context stack is emitted with no style code at all — byte-identical to an
info-level (1) write — whereas the claim requires a dim style prefix. -/
theorem C6_write_style_counterexample :
    richOutputWrite 0 [] "" "dbg" ≠ specRichWrite claimedStyle 0 [] "" "dbg" ∧
    richOutputWrite 0 [] "" "dbg" = "dbg\n\x1b[0m" ∧
    richOutputWrite 0 [] "" "dbg" = richOutputWrite 1 [] "" "dbg" := by
  refine ⟨by decide, by decide, by decide⟩


/-- C3: opening a name that already exists in the store's directory leaves
the directory contents untouched (the existing file is neither truncated nor
overwritten) and returns a discard sink: false in boolean context, writable,
its `write` dropping any string or bytes while returning the length, and its
`read` and `seek` raising unsupported-operation errors. -/
theorem C3_open_collision_discard_sink (fs : FS) (filename mode : String)
    (name : Option String) (c : List UInt8)
    (hmode : validMode mode = true)
    (hex : (fs : List (String × List UInt8)).lookup filename = some c) :
    dirOpen fs filename mode name = (.ok (.devnull (pyOr name filename)), fs) ∧
    ((dirOpen fs filename mode name).2 : List (String × List UInt8)).lookup filename = some c ∧
    handleBool (.devnull (pyOr name filename)) = false ∧
    devnullWritable = true ∧
    (∀ (α : Type) (item : List α), devnullWrite item = .ok item.length) ∧
    (∀ (α : Type) (n : Nat), devnullRead α n = .error (.unsupportedOperation "not readable")) ∧
    (∀ args, devnullSeek args = .error (.unsupportedOperation "not seekable")) := by
  refine ⟨?_, ?_, rfl, rfl, fun α item => rfl, fun α n => rfl, fun args => rfl⟩
  · simp [dirOpen, hmode, hex]
  · simp [dirOpen, hmode, hex]

/-- C3 witness: a concrete collision (`"a"` already stored with content
`[1]`) returns the discard sink and leaves the content readable. -/
theorem C3_open_collision_discard_sink_witness :
    dirOpen [("a", [1])] "a" "w" none = (.ok (.devnull "a"), [("a", [1])]) ∧
    handleBool (.devnull "a") = false :=
  have h := C3_open_collision_discard_sink [("a", [1])] "a" "w" none [1] rfl rfl
  ⟨h.1, h.2.2.1⟩

/-- C7: invalid protocol usage aborts loudly — popping an empty context
stack raises an `IndexError`, and `directory.open` with a mode other than
`'w'`, `'w+'`, `'wb'`, `'wb+'` raises a `ValueError` with the directory
contents unchanged (no file is created). -/
theorem C7_invalid_usage_errors (fs : FS) (filename mode : String)
    (name : Option String) (hmode : validMode mode = false) :
    applyEvent .pop [] = .error .indexError ∧
    dirOpen fs filename mode name = (.error (.valueError ("invalid mode: " ++ mode)), fs) := by
  refine ⟨rfl, ?_⟩
  simp [dirOpen, hmode]

/-- C7 witness: mode `"r"` is rejected with the store untouched. -/
theorem C7_invalid_usage_errors_witness :
    applyEvent .pop [] = .error .indexError ∧
    dirOpen [] "x" "r" none = (.error (.valueError "invalid mode: r"), []) :=
  C7_invalid_usage_errors [] "x" "r" none rfl

/-- The streaming loop feeds the digest exactly `acc ++ rest`. -/
theorem hashUpdateLoop_eq_append :
    ∀ (n : Nat) (rest acc : List UInt8), rest.length ≤ n →
      hashUpdateLoop rest acc = acc ++ rest := by
  intro n
  induction n with
  | zero =>
      intro rest acc h
      have hrest : rest = [] := List.eq_nil_of_length_eq_zero (Nat.le_zero.mp h)
      subst hrest
      rw [hashUpdateLoop]
      simp
  | succ n ih =>
      intro rest acc h
      rw [hashUpdateLoop]
      by_cases hr : rest.isEmpty
      · rw [if_pos hr]
        rw [List.isEmpty_iff.mp hr]
        simp
      · rw [if_neg hr]
        rw [ih]
        · rw [List.append_assoc, List.take_append_drop]
        · have hpos : 0 < rest.length := by
            cases rest with
            | nil => simp at hr
            | cons a l => simp
          have : rest.length - hashBlocksize ≤ rest.length - 1 :=
            Nat.sub_le_sub_left (by decide) rest.length
          simp only [List.length_drop]
          omega

/-- C8: for every digest algorithm and every file content, the store's
blockwise streaming hash computation returns exactly the digest of the
file's whole content in one pass. -/
theorem C8_hash_blockwise_eq_whole (digest : List UInt8 → List UInt8)
    (content : List UInt8) :
    directoryHash digest content = digest content := by
  rw [directoryHash, hashUpdateLoop_eq_append content.length content [] (Nat.le_refl _)]
  rfl

/-- Splitting preserves the filename: root and extension concatenate back to
the original name. -/
theorem splitext_append (p : List Char) :
    (splitext p).1 ++ (splitext p).2 = p := by
  unfold splitext
  cases rfindIdx '.' p with
  | none => simp
  | some d =>
      simp only []
      split
      · split
        · exact List.take_append_drop d p
        · simp
      · simp

/-- C9: the candidate-name sequence yields first the filename itself, and
for every `i ≥ 1` the name formed by inserting `-i` between the stem and the
extension, the extension preserved (stem and extension being the
`splitext` decomposition, which concatenates back to the filename). -/
theorem C9_candidate_sequence (filename : List Char) (i : Nat) (h : 1 ≤ i) :
    sequenceName filename 0 = filename ∧
    (splitext filename).1 ++ (splitext filename).2 = filename ∧
    sequenceName filename i
      = (splitext filename).1 ++ ('-' :: (Nat.repr i).data) ++ (splitext filename).2 := by
  refine ⟨rfl, splitext_append filename, ?_⟩
  have hne : i ≠ 0 := Nat.one_le_iff_ne_zero.mp h
  simp [sequenceName, hne]

/-- C9 witness: `"test.dat"` yields `"test.dat"` then `"test-1.dat"`. -/
theorem C9_candidate_sequence_witness :
    sequenceName ("test.dat".data) 0 = "test.dat".data ∧
    sequenceName ("test.dat".data) 1 = "test-1.dat".data := by
  have h := C9_candidate_sequence "test.dat".data 1 (by decide)
  refine ⟨h.1, ?_⟩
  rw [h.2.2]
  decide

/-- C6 (corrected): every rich `write` is the level-dependent style code
(bold-red error, red warning, bold-blue user, none for info and debug)
followed by the text, a newline, the current context path re-printed in dim
style whenever the context stack is non-empty, and a reset. -/
theorem C6_write_style_amended (level : Nat) (currentcontext : List String)
    (cur : String) (text : String) :
    richOutputWrite level currentcontext cur text
      = specRichWrite amendedStyle level currentcontext cur text := by
  apply String.ext
  simp only [richOutputWrite, specRichWrite, amendedStyle]
  cases currentcontext <;> split_ifs <;>
    simp [String.join, String.data_append, List.append_assoc]


/-- C4 counterexample: an `open("test.dat", level 1)` whose scope exits
normally without emitting anything of its own produces the event sequence
`pushcontext("test.dat"), popcontext(), write("test.dat", 1)` — not only the
single write event the claim allows. -/
theorem C4_default_open_counterexample :
    (contextLogOpen "test.dat" 1 []).1 ≠ [FEvent.write "test.dat" 1] ∧
    (contextLogOpen "test.dat" 1 []).1
      = [FEvent.push "test.dat", FEvent.pop, FEvent.write "test.dat" 1] := by
  refine ⟨by decide, by decide⟩

/-- C4 (corrected): the default base `open` yields a pure no-op discard sink
tagged with the virtual filename; it additionally pushes the filename as a
context for the duration of the scope and pops it on exit, and after the
scope closes normally exactly one `write(filename, level)` event is emitted;
no other event results from the open itself. -/
theorem C4_default_open_amended (filename : String) (level : Nat)
    (bodyEvents : List FEvent) :
    (contextLogOpen filename level bodyEvents).1
      = [FEvent.push filename] ++ bodyEvents ++ [FEvent.pop, FEvent.write filename level] ∧
    (contextLogOpen filename level bodyEvents).2 = Handle.devnull filename ∧
    devnullVirtualName filename = "<treelog>/" ++ filename ∧
    handleBool (Handle.devnull filename) = false ∧
    (∀ (α : Type) (item : List α), devnullWrite item = .ok item.length) := by
  refine ⟨?_, rfl, rfl, rfl, fun α item => rfl⟩
  simp [contextLogOpen, withContextEvents]

/-- C5: for every minimum level and every event sequence, the filter
forwards every `pushcontext`/`popcontext`/`recontext` event exactly as
received — the forwarded stream contains precisely the context events of the
input, in order — no matter which writes and attachment opens around them
are dropped. -/
theorem C5_filter_context_unfiltered (minlevel : Nat) (es : List FEvent) :
    (filterRun minlevel es).filter isContextEvent = es.filter isContextEvent ∧
    (∀ e ∈ es, isContextEvent e = true → filterForward minlevel e = [e]) := by
  constructor
  · induction es with
    | nil => rfl
    | cons e rest ih =>
        cases e <;>
          simp only [filterRun, List.flatMap_cons, List.filter_append, List.filter_cons] <;>
          rw [show filterRun minlevel rest = rest.flatMap (filterForward minlevel) from rfl] at ih <;>
          simp [filterForward, isContextEvent, ih]
  · intro e he hc
    cases e <;> simp_all [filterForward, isContextEvent]

/-- C5 witness: with threshold `user` (2), a context containing only an
info-level write and an info-level attachment is forwarded with all its
context events intact while both contents are dropped. -/
theorem C5_filter_context_unfiltered_witness :
    (filterRun 2 [FEvent.push "a", FEvent.write "x" 1, FEvent.openev "f" 1,
        FEvent.re "b", FEvent.pop]).filter isContextEvent
      = ([FEvent.push "a", FEvent.write "x" 1, FEvent.openev "f" 1,
          FEvent.re "b", FEvent.pop]).filter isContextEvent ∧
    filterForward 2 (FEvent.re "b") = [FEvent.re "b"] :=
  have h := C5_filter_context_unfiltered 2
    [FEvent.push "a", FEvent.write "x" 1, FEvent.openev "f" 1, FEvent.re "b", FEvent.pop]
  ⟨h.1, h.2 (FEvent.re "b") (by decide) rfl⟩


theorem removeKey_of_lookup_none {α : Type} (k : String) (l : List (String × α))
    (h : lookupKey k l = none) : removeKey k l = l := by
  induction l with
  | nil => rfl
  | cons kv rest ih =>
      obtain ⟨k', v⟩ := kv
      by_cases hk : k' = k
      · simp [lookupKey, hk] at h
      · simp [lookupKey, hk] at h
        simp [removeKey, hk, ih h]

theorem removeKey_append_singleton {α : Type} (k : String) (v : α)
    (l : List (String × α)) (h : lookupKey k l = none) :
    removeKey k (l ++ [(k, v)]) = l := by
  induction l with
  | nil => simp [removeKey]
  | cons kv rest ih =>
      obtain ⟨k', v'⟩ := kv
      by_cases hk : k' = k
      · simp [lookupKey, hk] at h
      · simp [lookupKey, hk] at h
        simp [removeKey, hk, ih h]

theorem firstUnusedAux_lookup_none (files : List (String × List UInt8))
    (filename : String) (fuel i : Nat) (c : String)
    (h : firstUnusedAux files filename fuel i = some c) :
    lookupKey c files = none := by
  induction fuel generalizing i with
  | zero => simp [firstUnusedAux] at h
  | succ fuel ih =>
      rw [firstUnusedAux] at h
      by_cases hc : (lookupKey (String.mk (sequenceName filename.data i)) files).isSome
      · rw [if_pos hc] at h
        exact ih (i + 1) h
      · rw [if_neg hc] at h
        cases h
        exact Option.not_isSome_iff_eq_none.mp hc

theorem dataLogOpenFresh_exn (st : Store) (filename : String) (level : Nat)
    (key : Option String) (e : String) (written : List UInt8) (claimed : String)
    (hkey : ∀ k, key = some k → lookupKey k st.ids = none)
    (hfu : firstUnused st.files filename = some claimed) :
    dataLogOpenFresh st filename level key (.exn e written) = some ([], st, some e) := by
  have hclaimed : lookupKey claimed st.files = none :=
    firstUnusedAux_lookup_none st.files filename (st.files.length + 1) 0 claimed hfu
  have hfiles : removeKey claimed (st.files ++ [(claimed, written)]) = st.files :=
    removeKey_append_singleton claimed written st.files hclaimed
  rw [dataLogOpenFresh.eq_def, hfu]
  cases key with
  | none => simp [hfiles]
  | some k =>
      have hids : removeKey k st.ids = st.ids :=
        removeKey_of_lookup_none k st.ids (hkey k rfl)
      simp [hfiles, hids]

/-- C2: an attachment scope opened through the store's
`open(filename, mode, level, id)` that exits abnormally emits no write
event, leaves the store exactly as it was before the call (the partially
written artifact and any id-index entry for this call are deleted), and
propagates the caller's original exception unchanged. -/
theorem C2_abnormal_exit_cleanup (st : Store) (filename : String) (level : Nat)
    (id : Option (List UInt8)) (e : String) (written : List UInt8)
    (ev : List FEvent) (st' : Store) (res : Option String)
    (h : dataLogOpen st filename level id (.exn e written) = some (ev, st', res)) :
    ev = [] ∧ st' = st ∧ res = some e := by
  have hval : dataLogOpen st filename level id (.exn e written) = some ([], st, some e) := by
    cases id with
    | none =>
        have hred : dataLogOpen st filename level none (.exn e written)
            = dataLogOpenFresh st filename level none (.exn e written) := rfl
        cases hfu : firstUnused st.files filename with
        | none =>
            exfalso
            have hnone : dataLogOpenFresh st filename level none (.exn e written) = none := by
              rw [dataLogOpenFresh.eq_def, hfu]
            rw [hred, hnone] at h
            cases h
        | some claimed =>
            rw [hred]
            exact dataLogOpenFresh_exn st filename level none e written claimed
              (fun k hk => by cases hk) hfu
    | some idb =>
        have hred : dataLogOpen st filename level (some idb) (.exn e written)
            = match lookupKey (hexEncode idb) st.ids with
              | some _ => some ([], st, some e)
              | none => dataLogOpenFresh st filename level (some (hexEncode idb))
                  (.exn e written) := rfl
        cases hl : lookupKey (hexEncode idb) st.ids with
        | some stored => rw [hred, hl]
        | none =>
            rw [hred, hl]
            cases hfu : firstUnused st.files filename with
            | none =>
                exfalso
                have hnone : dataLogOpenFresh st filename level (some (hexEncode idb))
                    (.exn e written) = none := by
                  rw [dataLogOpenFresh.eq_def, hfu]
                rw [hred, hl] at h
                rw [hnone] at h
                cases h
            | some claimed =>
                exact dataLogOpenFresh_exn st filename level (some (hexEncode idb)) e written
                  claimed (fun k hk => by cases hk; exact hl) hfu
  rw [hval] at h
  simp only [Option.some_inj, Prod.mk.injEq] at h
  exact ⟨h.1.symm, h.2.1.symm, h.2.2.symm⟩

/-- C2 witness: a scope for `"dat"` with id `b'abc'` that raises after
writing one byte leaves a store holding only the unrelated file `"keep"`
untouched, emits nothing, and re-raises the error. -/
theorem C2_abnormal_exit_cleanup_witness :
    dataLogOpen ⟨[("keep", [1])], []⟩ "dat" 1 (some [97, 98, 99])
        (.exn "RuntimeError" [116])
      = some ([], ⟨[("keep", [1])], []⟩, some "RuntimeError") ∧
    (([] : List FEvent) = [] ∧ (⟨[("keep", [1])], []⟩ : Store) = ⟨[("keep", [1])], []⟩ ∧
      (some "RuntimeError" : Option String) = some "RuntimeError") :=
  ⟨by decide, C2_abnormal_exit_cleanup ⟨[("keep", [1])], []⟩ "dat" 1 (some [97, 98, 99])
    "RuntimeError" [116] [] ⟨[("keep", [1])], []⟩ (some "RuntimeError") (by decide)⟩
